import Mathlib

/-
Verification development for the bm-world-controller core of the
blockmarket repository.  The Java sources under
src/bm-world-controller/src/main/java/org/blockmarket/bmWorldController
are embedded shallowly: pure decision logic becomes Lean functions,
stateful callbacks become explicit state-passing functions, and the
observable behaviour of a message handler is a list of effects
(replies, broadcasts, scheduled builds).  Machine integers are modeled
by Int or Nat; every division in scope is applied to a nonnegative
size (validated to lie in 3..100), where Java truncating division and
Lean division agree.
-/

namespace BlockMarket

/- ===== Java string primitives, modeled over lists of characters =====
   These model the exact java.lang.String operations used by the code:
   trim (strips characters with code at most 0x20 from both ends),
   split on a single literal space (java String.split with a one-space
   pattern keeps leading and interior empty pieces and drops trailing
   empty pieces; splitting the empty string yields one empty piece),
   toLowerCase (ASCII case folding suffices for every name in scope),
   and Integer.parseInt (optional sign, decimal digits). -/

def isJavaSpace (c : Char) : Bool := c.toNat ≤ 32

def javaTrim (l : List Char) : List Char :=
  ((l.dropWhile isJavaSpace).reverse.dropWhile isJavaSpace).reverse

def splitOnChar (sep : Char) : List Char → List (List Char)
  | [] => [[]]
  | c :: cs =>
    let rest := splitOnChar sep cs
    if c = sep then [] :: rest
    else
      match rest with
      | [] => [[c]]
      | piece :: pieces => (c :: piece) :: pieces

def dropTrailingEmpties (l : List (List Char)) : List (List Char) :=
  (l.reverse.dropWhile List.isEmpty).reverse

def javaSplitSpace (l : List Char) : List (List Char) :=
  match l with
  | [] => [[]]
  | _ => dropTrailingEmpties (splitOnChar ' ' l)

def toLowerStr (s : String) : String := String.mk (s.data.map Char.toLower)

def digitVal? (c : Char) : Option Nat :=
  if 48 ≤ c.toNat ∧ c.toNat ≤ 57 then some (c.toNat - 48) else none

def digitsToNatAux : List Char → Nat → Option Nat
  | [], acc => some acc
  | c :: cs, acc =>
    match digitVal? c with
    | some d => digitsToNatAux cs (acc * 10 + d)
    | none => none

def digitsToNat? (l : List Char) : Option Nat :=
  match l with
  | [] => none
  | _ => digitsToNatAux l 0

def parseDecimal? (s : String) : Option Int :=
  match s.data with
  | '-' :: rest => (digitsToNat? rest).map (fun n => -(n : Int))
  | '+' :: rest => (digitsToNat? rest).map (fun n => (n : Int))
  | l => (digitsToNat? l).map (fun n => (n : Int))

/- java.lang.Integer.parseInt: decimal with optional sign, throwing
   NumberFormatException (none) on malformed input and on values
   outside the signed 32-bit range. -/
def parseIntJava (s : String) : Option Int :=
  (parseDecimal? s).bind (fun n =>
    if -(2 ^ 31) ≤ n ∧ n < 2 ^ 31 then some n else none)

/- java.lang.Long.parseLong: as parseIntJava with the signed 64-bit
   range. -/
def parseLongJava (s : String) : Option Int :=
  (parseDecimal? s).bind (fun n =>
    if -(2 ^ 63) ≤ n ∧ n < 2 ^ 63 then some n else none)

/- Narrowing of an arbitrary integer to a signed 32-bit int, as the
   Java (int) cast and BigInteger.intValue do: keep the low 32 bits in
   two-complement. -/
def wrap32 (n : Int) : Int := (n + 2 ^ 31) % 2 ^ 32 - 2 ^ 31

/- Narrowing to a signed 64-bit long, as the Java (long) cast does. -/
def wrap64 (n : Int) : Int := (n + 2 ^ 63) % 2 ^ 64 - 2 ^ 63

/- ===== CommandExecutor (CommandExecutor.java) ===== -/

/- The fixed dangerous list, verbatim from isDangerousCommand,
   including the duplicated setworldspawn entry of the source. -/
def dangerousCommands : List String :=
  ["stop", "restart", "reload", "reload-all", "save-all", "save-off", "save-on",
   "whitelist", "ban", "ban-ip", "pardon", "pardon-ip", "kick", "op", "deop",
   "setworldspawn", "setworldspawn", "world", "worlds", "multiverse", "mv"]

def isCommandBlocked (blockedCommands : List String) (commandName : String) : Bool :=
  blockedCommands.contains (toLowerStr commandName)

def isCommandAllowed (allowedCommands : List String) (commandName : String) : Bool :=
  allowedCommands.contains (toLowerStr commandName)

def isDangerousCommand (commandName : String) : Bool :=
  dangerousCommands.contains (toLowerStr commandName)

/- The slash stripping of executeCommand: remove one leading slash if
   present. -/
def cleanCommandChars (command : String) : List Char :=
  match command.data with
  | c :: cs => if c = '/' then cs else command.data
  | [] => []

/- The permission gate of executeCommand: the decision whether the raw
   command reaches Bukkit.dispatchCommand.  some true means permitted,
   some false means rejected, none means the uncaught
   ArrayIndexOutOfBoundsException of parts[0] when the slash-stripped
   command splits to no pieces (a slash followed only by spaces). -/
def executeCommandPermit (allowedCommands blockedCommands : List String)
    (command : String) : Option Bool :=
  if (javaTrim command.data).isEmpty then some false
  else
    match javaSplitSpace (cleanCommandChars command) with
    | [] => none
    | p :: _ =>
      let commandName := toLowerStr (String.mk p)
      if isCommandBlocked blockedCommands commandName then some false
      else if !allowedCommands.isEmpty && !isCommandAllowed allowedCommands commandName then
        some false
      else if isDangerousCommand commandName then some false
      else some true

/- Modelled from the spec: the reference permission predicate
   isPermitted(name), written exactly in the order the spec gives it
   (denylist, then the fixed dangerous set, then allowlist membership
   when the allowlist is nonempty).  Used only to compare the code
   against the spec. -/
def isPermittedSpec (allowlist denylist : List String) (name : String) : Bool :=
  if denylist.contains name then false
  else if dangerousCommands.contains name then false
  else if !allowlist.isEmpty then allowlist.contains name
  else true

/- Modelled from the spec: the first whitespace-delimited token of the
   command, lower-cased, with a leading slash removed, as the claim
   describes the tokenization. -/
def firstWhitespaceToken (command : String) : String :=
  toLowerStr (String.mk (((cleanCommandChars command).dropWhile
    (fun c => c.isWhitespace)).takeWhile (fun c => !c.isWhitespace)))

/- The token the code actually uses: first piece of splitting the
   slash-stripped command on single spaces, lower-cased. -/
def codeFirstToken (command : String) : Option String :=
  match javaSplitSpace (cleanCommandChars command) with
  | [] => none
  | p :: _ => some (toLowerStr (String.mk p))

/- ===== WebSocketManager reconnect state machine (BmWorldController.java) ===== -/

structure ReconnectState where
  isConnected : Bool
  reconnectAttempts : Nat
deriving DecidableEq

def maxReconnectAttempts : Nat := 5

/- scheduleReconnect: gives up once the counter has reached the
   maximum, otherwise increments it and schedules one delayed connect.
   The Bool records whether a reconnect task was scheduled. -/
def scheduleReconnect (s : ReconnectState) : ReconnectState × Bool :=
  if s.reconnectAttempts ≥ maxReconnectAttempts then (s, false)
  else ({ s with reconnectAttempts := s.reconnectAttempts + 1 }, true)

/- onOpen: marks the link connected and resets the attempt counter. -/
def onOpenState (s : ReconnectState) : ReconnectState :=
  { s with isConnected := true, reconnectAttempts := 0 }

/- onClose: marks the link disconnected; schedules a reconnect only
   for an abnormal close code while attempts remain. -/
def onCloseState (code : Int) (s : ReconnectState) : ReconnectState × Bool :=
  let s1 := { s with isConnected := false }
  if code ≠ 1000 ∧ s1.reconnectAttempts < maxReconnectAttempts then scheduleReconnect s1
  else (s1, false)

/- A failed connect call: the catch branch of the asynchronous connect
   runner invokes scheduleReconnect on a link that is not connected. -/
def connectFailure (s : ReconnectState) : ReconnectState × Bool :=
  scheduleReconnect { s with isConnected := false }

def initialReconnectState : ReconnectState :=
  { isConnected := false, reconnectAttempts := 0 }

def afterFailures : Nat → ReconnectState
  | 0 => initialReconnectState
  | n + 1 => (connectFailure (afterFailures n)).1

/- Whether failure number n + 1 in a run of consecutive failed connect
   calls still schedules another automatic connect. -/
def failureSchedulesRetry (n : Nat) : Bool :=
  (connectFailure (afterFailures n)).2

/- forceReconnect: closes an existing socket if there is one, resets
   the counter, and calls connect.  Result fields: new state, whether
   a socket was closed, whether connect was invoked. -/
def forceReconnect (hasSocket : Bool) (s : ReconnectState) :
    ReconnectState × Bool × Bool :=
  ({ s with reconnectAttempts := 0 }, hasSocket, true)

/- ===== JSON values as Gson exposes them to the handlers ===== -/

inductive JVal where
  | str (s : String)
  | num (n : Int)
  | jbool (b : Bool)
  | jnull
deriving DecidableEq

/- A parsed JsonObject: association list of fields. -/
abbrev JObj := List (String × JVal)

def jget (json : JObj) (key : String) : Option JVal :=
  (json.find? (fun p => p.1 == key)).map (fun p => p.2)

/- JsonElement.getAsString: succeeds on string, number and boolean
   primitives, throws (none) on JsonNull. -/
def getAsString : JVal → Option String
  | .str s => some s
  | .num n => some (toString n)
  | .jbool b => some (if b then "true" else "false")
  | .jnull => none

/- JsonElement.getAsInt: a JSON number is narrowed to a signed 32-bit
   int (Gson goes through LazilyParsedNumber.intValue, an (int) cast
   of the long or BigDecimal value, which wraps rather than throws); a
   string primitive goes through Integer.parseInt, which throws on
   overflow; anything else throws. -/
def getAsInt : JVal → Option Int
  | .num n => some (wrap32 n)
  | .str s => parseIntJava s
  | .jbool _ => none
  | .jnull => none

/- JsonElement.getAsLong: the 64-bit analogue of getAsInt. -/
def getAsLong : JVal → Option Int
  | .num n => some (wrap64 n)
  | .str s => parseLongJava s
  | .jbool _ => none
  | .jnull => none

/- ===== Host state and session registry ===== -/

structure World where
  spawnX : Int
  spawnZ : Int
deriving DecidableEq

structure Client where
  conn : Nat
  clientId : String
  isOpen : Bool
deriving DecidableEq

structure ServerState where
  worlds : List (String × World)
  clients : List Client
  serverName : String
  serverVersion : String
  onlinePlayers : Nat
  maxPlayers : Nat
  port : Nat
deriving DecidableEq

/- ===== Outbound frames, field for field as the handlers build them ===== -/

inductive Outbound where
  | errorMsg (message : String) (timestamp : Int)
  | pong (timestamp : Int) (clientTimestamp : Option Int)
  | tradingFloorCreated (centerX centerY centerZ size : Int)
      (world : String) (requestedBy : String)
  | tradingFloorCreatedBroadcast (centerX centerY centerZ size : Int)
      (world : String) (createdBy : String)
  | broadcastMessage (message : String) (fromClient : String) (timestamp : Int)
  | serverInfo (serverName serverVersion : String)
      (onlinePlayers maxPlayers connectedClients port : Nat)
  | echo (originalMessage : String) (fromClient : String)
deriving DecidableEq

/- Observable effects of handling one inbound frame.  reply goes to
   the sender only, broadcastAll to every open session, and
   broadcastOthers to every open session except the sender.
   scheduleBuild records the single host-state write job the
   TradingFloorBuilder schedules. -/
inductive Effect where
  | reply (m : Outbound)
  | broadcastAll (m : Outbound)
  | broadcastOthers (m : Outbound)
  | scheduleBuild (world : String) (startX startZ size : Int)
deriving DecidableEq

/- ===== TradingFloorBuilder (TradingFloorBuilder.java) ===== -/

def floorY : Int := 100

def ceilingY : Int := 104

structure TradingFloorResult where
  centerX : Int
  centerY : Int
  centerZ : Int
  size : Int
deriving DecidableEq

/- The synchronously computed result of buildTradingFloor. -/
def buildTradingFloorResult (startX startZ size : Int) : TradingFloorResult :=
  { centerX := startX + size / 2
    centerY := floorY + 1
    centerZ := startZ + size / 2
    size := size }

/- The corner derived by buildTradingFloorCentered. -/
def centeredStart (center size : Int) : Int := center - size / 2

def buildTradingFloorCenteredResult (centerX centerZ size : Int) : TradingFloorResult :=
  buildTradingFloorResult (centeredStart centerX size) (centeredStart centerZ size) size

inductive Material where
  | polishedBlackstone
  | glass
  | seaLantern
deriving DecidableEq

abbrev BlockWrite := Int × Int × Int × Material

/- The values taken by an int loop variable running from start for len
   iterations. -/
def intRange (start : Int) (len : Nat) : List Int :=
  (List.range len).map (fun i => start + Int.ofNat i)

/- The values taken by the strided light placement loops: start, then
   start + step, and so on while the value stays below bound.  fuel
   bounds the recursion; every use supplies enough fuel for the loop
   to run to completion. -/
def strideWhile (fuel : Nat) (x bound step : Int) : List Int :=
  match fuel with
  | 0 => []
  | f + 1 => if x < bound then x :: strideWhile f (x + step) bound step else []

def buildFloorWrites (startX startZ size : Int) : List BlockWrite :=
  ((intRange startX size.toNat).map (fun x =>
    (intRange startZ size.toNat).map (fun z =>
      (x, floorY, z, Material.polishedBlackstone)))).flatten

def buildWallsWrites (startX startZ size : Int) : List BlockWrite :=
  ((intRange (floorY + 1) (ceilingY - (floorY + 1)).toNat).map (fun y =>
    ((intRange startX size.toNat).map (fun x =>
      [(x, y, startZ, Material.glass), (x, y, startZ + size - 1, Material.glass)])).flatten ++
    ((intRange startZ size.toNat).map (fun z =>
      [(startX, y, z, Material.glass), (startX + size - 1, y, z, Material.glass)])).flatten)).flatten

def buildGlassCeilingWrites (startX startZ size : Int) : List BlockWrite :=
  ((intRange startX size.toNat).map (fun x =>
    (intRange startZ size.toNat).map (fun z =>
      (x, ceilingY, z, Material.glass)))).flatten

def addLightingWrites (startX startZ size lightY : Int) : List BlockWrite :=
  let spacing := max 4 (size / 6)
  ((strideWhile size.toNat (startX + spacing) (startX + size - 1) spacing).map (fun x =>
    (strideWhile size.toNat (startZ + spacing) (startZ + size - 1) spacing).map (fun z =>
      (x, lightY + 2, z, Material.seaLantern)))).flatten

/- The full write sequence of one scheduled build: floor, walls, glass
   ceiling, then lighting, with addLighting invoked at floorY + 1 as
   in the source. -/
def buildTradingFloorWrites (startX startZ size : Int) : List BlockWrite :=
  buildFloorWrites startX startZ size ++ buildWallsWrites startX startZ size ++
  buildGlassCeilingWrites startX startZ size ++
  addLightingWrites startX startZ size (floorY + 1)

/- ===== WebSocketServer message handlers (WebSocketServer.java) ===== -/

/- Reading an optional int field: absent is fine (none), present but
   unconvertible throws (error). -/
def parseIntField (json : JObj) (key : String) : Except String (Option Int) :=
  match jget json key with
  | some v =>
    match getAsInt v with
    | some n => .ok (some n)
    | none => .error ("cannot convert " ++ key ++ " to an int")
  | none => .ok none

def parseStringField (json : JObj) (key : String) : Except String (Option String) :=
  match jget json key with
  | some v =>
    match getAsString v with
    | some s => .ok (some s)
    | none => .error ("cannot convert " ++ key ++ " to a string")
  | none => .ok none

/- handleCreateTradingFloor: parses size (default 10), world (default
   "world"), optional centerX and centerZ, in source order; then
   validates the size bound, resolves the world, and either reports a
   structured error or schedules the build and answers with the
   computed center plus a broadcast to the other sessions.  Its own
   catch block turns any conversion exception into a structured
   failure reply. -/
def handleCreateTradingFloor (st : ServerState) (clientId : String) (now : Int)
    (json : JObj) : List Effect :=
  match parseIntField json "size" with
  | .error e => [.reply (.errorMsg ("Failed to create trading floor: " ++ e) now)]
  | .ok sizeOpt =>
    let size := sizeOpt.getD 10
    match parseStringField json "world" with
    | .error e => [.reply (.errorMsg ("Failed to create trading floor: " ++ e) now)]
    | .ok worldOpt =>
      let worldName := worldOpt.getD "world"
      match parseIntField json "centerX" with
      | .error e => [.reply (.errorMsg ("Failed to create trading floor: " ++ e) now)]
      | .ok centerXOpt =>
        match parseIntField json "centerZ" with
        | .error e => [.reply (.errorMsg ("Failed to create trading floor: " ++ e) now)]
        | .ok centerZOpt =>
          if size < 3 ∨ size > 100 then
            [.reply (.errorMsg "Invalid size. Must be between 3 and 100." now)]
          else
            match (st.worlds.find? (fun p => p.1 == worldName)).map (fun p => p.2) with
            | none => [.reply (.errorMsg ("World not found: " ++ worldName) now)]
            | some world =>
              let center : Int × Int :=
                match centerXOpt, centerZOpt with
                | some cx, some cz => (cx, cz)
                | _, _ => (world.spawnX, world.spawnZ)
              let result := buildTradingFloorCenteredResult center.1 center.2 size
              [.scheduleBuild worldName (centeredStart center.1 size)
                 (centeredStart center.2 size) size,
               .reply (.tradingFloorCreated result.centerX result.centerY
                 result.centerZ result.size worldName clientId),
               .broadcastOthers (.tradingFloorCreatedBroadcast result.centerX
                 result.centerY result.centerZ result.size worldName clientId)]

def handlePing (now : Int) (json : JObj) : Except String (List Effect) :=
  match jget json "timestamp" with
  | some v =>
    match getAsLong v with
    | some t => .ok [.reply (.pong now (some t))]
    | none => .error "cannot convert timestamp to a long"
  | none => .ok [.reply (.pong now none)]

/- handleBroadcast: relays through broadcastToAll when the message
   field is present; does nothing at all when it is absent. -/
def handleBroadcast (clientId : String) (now : Int) (json : JObj) :
    Except String (List Effect) :=
  match jget json "message" with
  | some v =>
    match getAsString v with
    | some m => .ok [.broadcastAll (.broadcastMessage m clientId now)]
    | none => .error "cannot convert message to a string"
  | none => .ok []

def handleServerInfo (st : ServerState) : List Effect :=
  [.reply (.serverInfo st.serverName st.serverVersion st.onlinePlayers
    st.maxPlayers st.clients.length st.port)]

/- handleJsonMessage on an already parsed object: extracts the type
   field (empty string when absent), lower-cases it and routes.
   Exceptions escaping a handler propagate (error). -/
def handleJsonMessageE (st : ServerState) (clientId : String) (now : Int)
    (json : JObj) : Except String (List Effect) :=
  let tyE : Except String String :=
    match jget json "type" with
    | some v =>
      match getAsString v with
      | some s => .ok s
      | none => .error "cannot convert type to a string"
    | none => .ok ""
  match tyE with
  | .error e => .error e
  | .ok ty =>
    match toLowerStr ty with
    | "create_trading_floor" => .ok (handleCreateTradingFloor st clientId now json)
    | "ping" => handlePing now json
    | "broadcast" => handleBroadcast clientId now json
    | "get_server_info" => .ok (handleServerInfo st)
    | _ => .ok [.reply (.errorMsg ("Unknown message type: " ++ ty) now)]

/- The terminal outcome of a structured frame: exceptions escaping the
   routing are caught by the enclosing handleMessage catch block and
   turned into a generic error reply. -/
def jsonOutcome (st : ServerState) (clientId : String) (now : Int)
    (json : JObj) : List Effect :=
  match handleJsonMessageE st clientId now json with
  | .ok effects => effects
  | .error e => [.reply (.errorMsg ("Error processing message: " ++ e) now)]

def leftBrace : Char := Char.ofNat 123

def rightBrace : Char := Char.ofNat 125

def handlePlainTextMessage (clientId : String) (message : String) : List Effect :=
  [.reply (.echo message clientId)]

/- handleMessage: a frame whose trimmed text starts with a left brace
   and ends with a right brace is attempted as JSON (parseJson models
   the Gson parse, none meaning JsonSyntaxException); every other
   frame takes the plain-text echo path. -/
def handleMessage (parseJson : String → Option JObj) (st : ServerState)
    (clientId : String) (now : Int) (message : String) : List Effect :=
  let trimmed := javaTrim message.data
  if trimmed.head? = some leftBrace ∧ trimmed.getLast? = some rightBrace then
    match parseJson message with
    | some json => jsonOutcome st clientId now json
    | none => [.reply (.errorMsg "Invalid JSON format" now)]
  else handlePlainTextMessage clientId message

/- ===== Delivery semantics of the effect list ===== -/

def broadcastToAllConns (clients : List Client) : List Nat :=
  (clients.filter (fun c => c.isOpen)).map (fun c => c.conn)

def broadcastToOthersConns (clients : List Client) (excludeConn : Nat) : List Nat :=
  (clients.filter (fun c => c.conn != excludeConn && c.isOpen)).map (fun c => c.conn)

def effectDeliveries (clients : List Client) (senderConn : Nat) :
    Effect → List (Nat × Outbound)
  | .reply m => [(senderConn, m)]
  | .broadcastAll m => (broadcastToAllConns clients).map (fun conn => (conn, m))
  | .broadcastOthers m =>
    (broadcastToOthersConns clients senderConn).map (fun conn => (conn, m))
  | .scheduleBuild _ _ _ _ => []

/- Which session receives which frame when an effect list runs against
   the registry. -/
def deliveries (clients : List Client) (senderConn : Nat)
    (effects : List Effect) : List (Nat × Outbound) :=
  (effects.map (effectDeliveries clients senderConn)).flatten

/- ===== Thread-marshaling structure (claim C9) =====
   A small program skeleton recording, in source order, where log
   calls, socket sends, host-state writes and scheduler handoffs
   occur.  runOnMain is Bukkit runTask: its task executes on the
   single main update thread, its continuation stays on the calling
   thread. -/

inductive Prog where
  | done
  | logInfo (k : Prog)
  | sendFrame (k : Prog)
  | hostWrite (k : Prog)
  | runOnMain (task : Prog) (k : Prog)
deriving DecidableEq

def writesSeq : Nat → Prog
  | 0 => .done
  | n + 1 => .hostWrite (writesSeq n)

/- Host-state writes reached without crossing a runOnMain boundary,
   i.e. writes that would execute on the calling network thread. -/
def nonMainWrites : Prog → Nat
  | .done => 0
  | .logInfo k => nonMainWrites k
  | .sendFrame k => nonMainWrites k
  | .hostWrite k => nonMainWrites k + 1
  | .runOnMain _ k => nonMainWrites k

def totalWrites : Prog → Nat
  | .done => 0
  | .logInfo k => totalWrites k
  | .sendFrame k => totalWrites k
  | .hostWrite k => totalWrites k + 1
  | .runOnMain task k => totalWrites task + totalWrites k

/- The thread skeleton of one effect: sends stay on the current
   thread; a scheduled build logs and hands its block writes to the
   scheduler before continuing. -/
def progOfEffect : Effect → Prog → Prog
  | .reply _, k => .sendFrame k
  | .broadcastAll _, k => .sendFrame k
  | .broadcastOthers _, k => .sendFrame k
  | .scheduleBuild _ sx sz size, k =>
    .logInfo (.runOnMain (writesSeq (buildTradingFloorWrites sx sz size).length) k)

def progOfEffects : List Effect → Prog
  | [] => .done
  | e :: es => progOfEffect e (progOfEffects es)

/- WebSocketServer.onMessage: logs on the socket thread, then hands
   the whole of handleMessage to the scheduler. -/
def serverOnMessageProg (parseJson : String → Option JObj) (st : ServerState)
    (clientId : String) (now : Int) (message : String) : Prog :=
  .logInfo (.runOnMain
    (progOfEffects (handleMessage parseJson st clientId now message)) .done)

/- The connector handler body: after sanitization the command is
   dispatched (one host-state write) exactly when the permission gate
   lets it through. -/
def connectorHandleProg (allowedCommands blockedCommands : List String)
    (message : String) : Prog :=
  if executeCommandPermit allowedCommands blockedCommands message = some true then
    .hostWrite .done
  else .done

/- WebSocketManager.onMessage: logs on the socket thread, then hands
   the message handler to the scheduler. -/
def connectorOnMessageProg (allowedCommands blockedCommands : List String)
    (message : String) : Prog :=
  .logInfo (.runOnMain (connectorHandleProg allowedCommands blockedCommands message) .done)

/- ===== Concrete fixtures used by witnesses and counterexamples ===== -/

/- The type name a structured frame carries, as handleJsonMessage
   extracts it: the type field converted to a string, the empty string
   when the field is absent, none when the conversion throws. -/
def extractedType (json : JObj) : Option String :=
  match jget json "type" with
  | some v => getAsString v
  | none => some ""

/- A parse oracle for frames that are not well-formed JSON. -/
def parseJsonNone : String → Option JObj := fun _ => none

/- The malformed frame of end-to-end scenario D: a left brace,
   a quoted type key and a colon, with no closing brace. -/
def frameD : String := "\x7b\"type\":"

def exampleWorld : World := { spawnX := 3, spawnZ := 4 }

def exampleClients : List Client :=
  [{ conn := 1, clientId := "Client-1", isOpen := true },
   { conn := 2, clientId := "Client-2", isOpen := true }]

def exampleState : ServerState :=
  { worlds := [("world", exampleWorld)]
    clients := exampleClients
    serverName := "CraftBukkit"
    serverVersion := "1.21"
    onlinePlayers := 0
    maxPlayers := 20
    port := 8080 }

/- ===== Helper lemmas ===== -/

theorem char_toNat_ofNat (n : Nat) (h : n.isValidChar) : (Char.ofNat n).toNat = n := by
  rw [Char.ofNat, dif_pos h]
  rfl

theorem char_toLower_idem (c : Char) : c.toLower.toLower = c.toLower := by
  by_cases h : c.toNat ≥ 65 ∧ c.toNat ≤ 90
  · have hv : (c.toNat + 32).isValidChar := Or.inl (by omega)
    have h2 : (Char.ofNat (c.toNat + 32)).toNat = c.toNat + 32 := char_toNat_ofNat _ hv
    have h1 : c.toLower = Char.ofNat (c.toNat + 32) := by
      show (if c.toNat ≥ 65 ∧ c.toNat ≤ 90 then Char.ofNat (c.toNat + 32) else c) = _
      rw [if_pos h]
    rw [h1]
    show (if (Char.ofNat (c.toNat + 32)).toNat ≥ 65 ∧ (Char.ofNat (c.toNat + 32)).toNat ≤ 90 then
      Char.ofNat ((Char.ofNat (c.toNat + 32)).toNat + 32) else Char.ofNat (c.toNat + 32)) = _
    rw [if_neg (by rw [h2]; omega)]
  · have h1 : c.toLower = c := by
      show (if c.toNat ≥ 65 ∧ c.toNat ≤ 90 then Char.ofNat (c.toNat + 32) else c) = c
      rw [if_neg h]
    rw [h1, h1]

theorem toLowerStr_idem (s : String) : toLowerStr (toLowerStr s) = toLowerStr s := by
  unfold toLowerStr
  simp only [List.map_map]
  congr 1
  exact List.map_congr_left (fun c _ => char_toLower_idem c)

theorem afterFailures_attempts (n : Nat) :
    (afterFailures n).reconnectAttempts = min n maxReconnectAttempts := by
  induction n with
  | zero => rfl
  | succ n ih =>
    show (connectFailure (afterFailures n)).1.reconnectAttempts = _
    unfold connectFailure scheduleReconnect
    split
    · rename_i h
      simp only at h ⊢
      omega
    · rename_i h
      simp only at h ⊢
      omega

theorem failureSchedulesRetry_iff (n : Nat) :
    failureSchedulesRetry n = true ↔ n < maxReconnectAttempts := by
  have h := afterFailures_attempts n
  unfold failureSchedulesRetry connectFailure scheduleReconnect
  split
  · rename_i hge
    simp only at hge
    simp only [Bool.false_eq_true, false_iff]
    omega
  · rename_i hge
    simp only at hge
    simp only [true_iff]
    omega

/- ===== Claim C6 ===== -/

/-- C6: for every center and every size in 3..100, the centered entry
point derives its corner as center minus size over two (integer
division) and the reported centroid is recomputed as corner plus size
over two, so it equals the requested center exactly, and the centered
request and the corner-origin request at the derived corner produce
the identical computed result, for even and odd sizes alike. -/
theorem c6_centered_centroid (centerX centerZ size : Int)
    (h3 : 3 ≤ size) (h100 : size ≤ 100) :
    (buildTradingFloorCenteredResult centerX centerZ size).centerX = centerX ∧
    (buildTradingFloorCenteredResult centerX centerZ size).centerZ = centerZ ∧
    buildTradingFloorCenteredResult centerX centerZ size =
      buildTradingFloorResult (centerX - size / 2) (centerZ - size / 2) size := by
  unfold buildTradingFloorCenteredResult buildTradingFloorResult centeredStart
  refine ⟨?_, ?_, rfl⟩ <;> simp only [] <;> omega

/-- C6 witness: the theorem applied at center (7, 9) and size 10. -/
theorem c6_witness :
    ((3:Int) ≤ 10 ∧ (10:Int) ≤ 100) ∧
    ((buildTradingFloorCenteredResult 7 9 10).centerX = 7 ∧
     (buildTradingFloorCenteredResult 7 9 10).centerZ = 9 ∧
     buildTradingFloorCenteredResult 7 9 10 =
       buildTradingFloorResult (7 - 10 / 2) (9 - 10 / 2) 10) :=
  ⟨⟨by decide, by decide⟩, c6_centered_centroid 7 9 10 (by decide) (by decide)⟩

/- ===== Claim C2 ===== -/

/-- C2 counterexample: after five consecutive failed connect calls
from the initial state the Connector is not yet terminal: the fifth
failure still schedules a sixth automatic connect, even though the
counter has then reached maxReconnectAttempts. -/
theorem c2_counterexample :
    failureSchedulesRetry 4 = true ∧
    (afterFailures 5).reconnectAttempts = maxReconnectAttempts := by
  decide

/-- C2 amended: a run of consecutive failed connect calls schedules a
follow-up attempt exactly for the first maxReconnectAttempts = 5
failures, so automatic reconnection stops only after the initial
connect plus five retries (six failed connect calls) have failed;
every successful open resets the counter to 0 and marks the link
connected; forceReconnect closes an existing socket, resets the
counter to 0 and immediately calls connect; and from an exhausted
counter a failure schedules nothing while after forceReconnect a
failure schedules again. -/
theorem c2_amended :
    (∀ n : Nat, failureSchedulesRetry n = true ↔ n < maxReconnectAttempts) ∧
    (∀ s : ReconnectState,
      (onOpenState s).reconnectAttempts = 0 ∧ (onOpenState s).isConnected = true) ∧
    (∀ (hasSocket : Bool) (s : ReconnectState),
      forceReconnect hasSocket s =
        ({ isConnected := s.isConnected, reconnectAttempts := 0 }, hasSocket, true)) ∧
    (∀ s : ReconnectState, s.reconnectAttempts = maxReconnectAttempts →
      (connectFailure s).2 = false ∧
      (connectFailure (forceReconnect true s).1).2 = true) := by
  refine ⟨failureSchedulesRetry_iff, fun s => ⟨rfl, rfl⟩, fun hasSocket s => rfl, ?_⟩
  intro s h
  unfold connectFailure scheduleReconnect forceReconnect
  rw [h]
  constructor
  · rw [if_pos]
    exact Nat.le_refl _
  · rw [if_neg]
    simp [maxReconnectAttempts]

/-- C2 witness: the amended theorem applied at failure index 5 and at
an exhausted state with counter 5. -/
theorem c2_witness :
    (failureSchedulesRetry 5 = true ↔ 5 < maxReconnectAttempts) ∧
    ((onOpenState ⟨false, 3⟩).reconnectAttempts = 0 ∧
      (onOpenState ⟨false, 3⟩).isConnected = true) ∧
    (forceReconnect true ⟨false, 5⟩ = (⟨false, 0⟩, true, true)) ∧
    ((⟨false, 5⟩ : ReconnectState).reconnectAttempts = maxReconnectAttempts) ∧
    ((connectFailure ⟨false, 5⟩).2 = false ∧
      (connectFailure (forceReconnect true ⟨false, 5⟩).1).2 = true) :=
  ⟨c2_amended.1 5, c2_amended.2.1 ⟨false, 3⟩, c2_amended.2.2.1 true ⟨false, 5⟩,
    by decide, c2_amended.2.2.2 ⟨false, 5⟩ (by decide)⟩

/- ===== Claim C1 ===== -/

/-- C1 counterexample: on the raw command of a space followed by a
lifecycle-stop instruction, the first whitespace-delimited token is
the stop instruction and the reference definition rejects it, but the
code splits on single spaces, takes the empty first piece as the
command name, and permits the command (empty configured lists). -/
theorem c1_counterexample :
    executeCommandPermit [] [] " stop" = some true ∧
    firstWhitespaceToken " stop" = "stop" ∧
    isPermittedSpec [] [] (firstWhitespaceToken " stop") = false := by
  decide

/-- C1 amended: the permission decision equals the reference
definition applied not to the first whitespace-delimited token but to
the token the code computes: the first piece of splitting the
slash-stripped command on single space characters, lower-cased (for a
command with a leading space this token is empty), whenever the
command does not trim to empty and that first piece exists. -/
theorem c1_amended (allowedCommands blockedCommands : List String)
    (command : String) (tok : String)
    (hTrim : (javaTrim command.data).isEmpty = false)
    (hTok : codeFirstToken command = some tok) :
    executeCommandPermit allowedCommands blockedCommands command =
      some (isPermittedSpec allowedCommands blockedCommands tok) := by
  unfold codeFirstToken at hTok
  unfold executeCommandPermit
  rw [hTrim]
  simp only [Bool.false_eq_true, if_false]
  rcases hcc : javaSplitSpace (cleanCommandChars command) with _ | ⟨p, rest⟩
  · rw [hcc] at hTok
    exact absurd hTok (by simp)
  · rw [hcc] at hTok
    simp only [Option.some.injEq] at hTok
    subst hTok
    unfold isCommandBlocked isCommandAllowed isDangerousCommand isPermittedSpec
    simp only [toLowerStr_idem]
    cases hb : blockedCommands.contains (toLowerStr (String.mk p)) <;>
      cases ha : allowedCommands.isEmpty <;>
      cases hc : allowedCommands.contains (toLowerStr (String.mk p)) <;>
      cases hd : dangerousCommands.contains (toLowerStr (String.mk p)) <;>
      simp [hb, ha, hc, hd]

/-- C1 witness: the amended theorem applied to a slash-prefixed stop
command with a nonempty allowlist containing the stop instruction:
the code rejects it and so does the reference definition on the code
token, dangerous names being blocked even from inside the allowlist. -/
theorem c1_witness :
    ((javaTrim "/stop now".data).isEmpty = false) ∧
    (codeFirstToken "/stop now" = some "stop") ∧
    executeCommandPermit ["stop"] [] "/stop now" =
      some (isPermittedSpec ["stop"] [] "stop") ∧
    isPermittedSpec ["stop"] [] "stop" = false :=
  ⟨by decide, by decide,
    c1_amended ["stop"] [] "/stop now" "stop" (by decide) (by decide), by decide⟩

/- ===== Claim C9 ===== -/

theorem nonMainWrites_progOfEffects (effects : List Effect) :
    nonMainWrites (progOfEffects effects) = 0 := by
  induction effects with
  | nil => rfl
  | cons e es ih => cases e <;> simp [progOfEffects, progOfEffect, nonMainWrites, ih]

theorem totalWrites_writesSeq (n : Nat) : totalWrites (writesSeq n) = n := by
  induction n with
  | zero => rfl
  | succ n ih => simp [writesSeq, totalWrites, ih]

/-- C9: for both roles, every host-state write reachable from an
inbound frame (command dispatch on the Connector, scheduled builder
block writes on the Listener) sits under a scheduler handoff, so the
count of writes executed on the receiving network thread is zero for
every frame, every state and every configuration. -/
theorem c9_marshaling :
    (∀ (parseJson : String → Option JObj) (st : ServerState)
       (clientId : String) (now : Int) (message : String),
      nonMainWrites (serverOnMessageProg parseJson st clientId now message) = 0) ∧
    (∀ (allowedCommands blockedCommands : List String) (message : String),
      nonMainWrites (connectorOnMessageProg allowedCommands blockedCommands message) = 0) := by
  constructor
  · intro parseJson st clientId now message
    simp [serverOnMessageProg, nonMainWrites]
  · intro allowedCommands blockedCommands message
    simp [connectorOnMessageProg, nonMainWrites]

/- ===== Claim C5 ===== -/

/-- C5 counterexample: the malformed frame of scenario D does not end
with a right brace once trimmed, so the Listener does not attempt it
as JSON: it takes the plain-text path and echoes it back instead of
replying with the Invalid JSON format error. -/
theorem c5_counterexample :
    handleMessage parseJsonNone exampleState "Client-1" 0 frameD =
      [.reply (.echo frameD "Client-1")] ∧
    handleMessage parseJsonNone exampleState "Client-1" 0 frameD ≠
      [.reply (.errorMsg "Invalid JSON format" 0)] := by
  decide

/-- C5 amended: the malformed frame of scenario D is handled by the
plain-text path and echoed back to the sender; the Invalid JSON
format error is produced exactly for frames that trim to text
starting with a left brace and ending with a right brace and then
fail to parse. -/
theorem c5_amended (parseJson : String → Option JObj) (st : ServerState)
    (clientId : String) (now : Int) :
    handleMessage parseJson st clientId now frameD =
      [.reply (.echo frameD clientId)] ∧
    (∀ message : String,
      (javaTrim message.data).head? = some leftBrace →
      (javaTrim message.data).getLast? = some rightBrace →
      parseJson message = none →
      handleMessage parseJson st clientId now message =
        [.reply (.errorMsg "Invalid JSON format" now)]) := by
  constructor
  · have hcond : ¬((javaTrim frameD.data).head? = some leftBrace ∧
        (javaTrim frameD.data).getLast? = some rightBrace) := by decide
    simp only [handleMessage]
    rw [if_neg hcond]
    rfl
  · intro message h1 h2 hp
    simp only [handleMessage]
    rw [if_pos ⟨h1, h2⟩, hp]

/-- C5 witness: the amended theorem applied to the scenario frame and
to a two-brace frame that fails to parse. -/
theorem c5_witness :
    (handleMessage parseJsonNone exampleState "Client-9" 5 frameD =
      [.reply (.echo frameD "Client-9")]) ∧
    ((javaTrim "\x7b\x7d".data).head? = some leftBrace ∧
     (javaTrim "\x7b\x7d".data).getLast? = some rightBrace ∧
     parseJsonNone "\x7b\x7d" = none) ∧
    handleMessage parseJsonNone exampleState "Client-9" 5 "\x7b\x7d" =
      [.reply (.errorMsg "Invalid JSON format" 5)] :=
  ⟨(c5_amended parseJsonNone exampleState "Client-9" 5).1,
   ⟨by decide, by decide, rfl⟩,
   (c5_amended parseJsonNone exampleState "Client-9" 5).2 "\x7b\x7d"
     (by decide) (by decide) rfl⟩

/- ===== Claim C4 ===== -/

/-- C4 counterexample: with two open sessions and sender connection 1,
a broadcast frame is relayed through broadcastToAll, so the relay is
delivered to the sender as well, and the sender receives no separate
acknowledgement: the complete delivery list is the relay to both
connections and nothing else. -/
theorem c4_counterexample :
    deliveries exampleClients 1
      (jsonOutcome exampleState "Client-1" 7
        [("type", JVal.str "broadcast"), ("message", JVal.str "hi")]) =
      [(1, Outbound.broadcastMessage "hi" "Client-1" 7),
       (2, Outbound.broadcastMessage "hi" "Client-1" 7)] := by
  decide

/-- C4 amended: a broadcast frame carrying a message produces exactly
one relay effect through broadcastToAll, so the relay (message,
sender id, timestamp) is delivered to every open session including
the sender, and the only frame the sender receives is that same
relay, not a separate acknowledgement. -/
theorem c4_amended (st : ServerState) (clientId : String) (now : Int)
    (json : JObj) (ty m : String)
    (hTy : jget json "type" = some (JVal.str ty))
    (hLow : toLowerStr ty = "broadcast")
    (hMsg : jget json "message" = some (JVal.str m)) :
    jsonOutcome st clientId now json =
      [.broadcastAll (.broadcastMessage m clientId now)] ∧
    (∀ (clients : List Client) (senderConn : Nat),
      deliveries clients senderConn (jsonOutcome st clientId now json) =
        (clients.filter (fun c => c.isOpen)).map
          (fun c => (c.conn, Outbound.broadcastMessage m clientId now))) := by
  have he : jsonOutcome st clientId now json =
      [.broadcastAll (.broadcastMessage m clientId now)] := by
    unfold jsonOutcome handleJsonMessageE handleBroadcast
    simp only [hTy, hMsg, getAsString, hLow]
  refine ⟨he, ?_⟩
  intro clients senderConn
  rw [he]
  simp [deliveries, effectDeliveries, broadcastToAllConns, List.map_map]

/-- C4 witness: the amended theorem applied to a concrete broadcast
frame, state and registry. -/
theorem c4_witness :
    (jsonOutcome exampleState "Client-1" 7
        [("type", JVal.str "broadcast"), ("message", JVal.str "hi")] =
      [.broadcastAll (.broadcastMessage "hi" "Client-1" 7)]) ∧
    deliveries exampleClients 2
      (jsonOutcome exampleState "Client-1" 7
        [("type", JVal.str "broadcast"), ("message", JVal.str "hi")]) =
      (exampleClients.filter (fun c => c.isOpen)).map
        (fun c => (c.conn, Outbound.broadcastMessage "hi" "Client-1" 7)) :=
  ⟨(c4_amended exampleState "Client-1" 7
      [("type", JVal.str "broadcast"), ("message", JVal.str "hi")]
      "broadcast" "hi" (by decide) (by decide) (by decide)).1,
   (c4_amended exampleState "Client-1" 7
      [("type", JVal.str "broadcast"), ("message", JVal.str "hi")]
      "broadcast" "hi" (by decide) (by decide) (by decide)).2 exampleClients 2⟩

theorem getAsString_str (s : String) : getAsString (JVal.str s) = some s := rfl

theorem getAsInt_num (n : Int) : getAsInt (JVal.num n) = some (wrap32 n) := rfl

/- ===== Claim C10 ===== -/

/-- C10: a create_trading_floor frame with no size, world, centerX or
centerZ field is not rejected: size defaults to 10, the world
defaults to the one named world, and the build is centered on that
world spawn point, with the corner derived as spawn minus 5 and the
reported center recomputed back to the spawn point; the success reply
and the peer broadcast carry those values. -/
theorem c10_defaults (st : ServerState) (clientId : String) (now : Int)
    (json : JObj)
    (hTy : jget json "type" = some (JVal.str "create_trading_floor"))
    (hSize : jget json "size" = none) (hWorld : jget json "world" = none)
    (hCX : jget json "centerX" = none) (hCZ : jget json "centerZ" = none)
    (w : World)
    (hW : (st.worlds.find? (fun p => p.1 == "world")).map (fun p => p.2) = some w) :
    jsonOutcome st clientId now json =
      [.scheduleBuild "world" (w.spawnX - 5) (w.spawnZ - 5) 10,
       .reply (.tradingFloorCreated w.spawnX 101 w.spawnZ 10 "world" clientId),
       .broadcastOthers
         (.tradingFloorCreatedBroadcast w.spawnX 101 w.spawnZ 10 "world" clientId)] := by
  have hL : toLowerStr "create_trading_floor" = "create_trading_floor" := by decide
  unfold jsonOutcome handleJsonMessageE handleCreateTradingFloor parseIntField
    parseStringField
  simp only [hTy, hSize, hWorld, hCX, hCZ, getAsString_str, hL, hW, Option.getD_some,
    Option.getD_none]
  rw [if_neg (by omega : ¬((10:Int) < 3 ∨ (10:Int) > 100))]
  simp only [buildTradingFloorCenteredResult, buildTradingFloorResult, centeredStart,
    floorY]
  norm_num

/-- C10 witness: the theorem applied to the bare frame carrying only
its type field, against a state whose default world has spawn (3, 4). -/
theorem c10_witness :
    jsonOutcome exampleState "Client-1" 0 [("type", JVal.str "create_trading_floor")] =
      [.scheduleBuild "world" (-2) (-1) 10,
       .reply (.tradingFloorCreated 3 101 4 10 "world" "Client-1"),
       .broadcastOthers (.tradingFloorCreatedBroadcast 3 101 4 10 "world" "Client-1")] := by
  have h := c10_defaults exampleState "Client-1" 0
    [("type", JVal.str "create_trading_floor")] (by decide) (by decide) (by decide)
    (by decide) (by decide) exampleWorld (by decide)
  simpa [exampleWorld] using h

/- ===== Claim C3 ===== -/

/-- C3 counterexample: a create_trading_floor request whose size
field holds the JSON number 4294967306 - far above 100 - is not
rejected: Gson narrows the number to the 32-bit int 10, validation
passes, and the server schedules the build and answers with the
success reply plus the peer broadcast instead of the Invalid size
error. -/
theorem c3_counterexample :
    jsonOutcome exampleState "Client-1" 0
        [("type", JVal.str "create_trading_floor"), ("size", JVal.num 4294967306)] =
      [.scheduleBuild "world" (-2) (-1) 10,
       .reply (.tradingFloorCreated 3 101 4 10 "world" "Client-1"),
       .broadcastOthers (.tradingFloorCreatedBroadcast 3 101 4 10 "world" "Client-1")] ∧
    (4294967306 : Int) > 100 := by
  decide

/-- C3 amended: a create_trading_floor request whose size field
converts, under the 32-bit narrowing of the JSON layer, to an int
below 3 or above 100 (its other optional fields being absent or
convertible) is answered with exactly the structured Invalid size
error to the sender: no build is scheduled, nothing is broadcast to
other sessions, and the complete delivery list is that single error
reply.  A JSON size literal that is itself out of range but whose
32-bit image lands in 3..100 passes validation and builds. -/
theorem c3_invalid_size (st : ServerState) (clientId : String) (now : Int)
    (json : JObj) (ty : String)
    (hTy : jget json "type" = some (JVal.str ty))
    (hLow : toLowerStr ty = "create_trading_floor")
    (sv : JVal) (n : Int)
    (hSizeField : jget json "size" = some sv)
    (hSizeVal : getAsInt sv = some n)
    (hRange : n < 3 ∨ n > 100)
    (hWorldOk : (jget json "world").all (fun v => (getAsString v).isSome) = true)
    (hCXOk : (jget json "centerX").all (fun v => (getAsInt v).isSome) = true)
    (hCZOk : (jget json "centerZ").all (fun v => (getAsInt v).isSome) = true) :
    jsonOutcome st clientId now json =
      [.reply (.errorMsg "Invalid size. Must be between 3 and 100." now)] ∧
    (∀ (clients : List Client) (senderConn : Nat),
      deliveries clients senderConn (jsonOutcome st clientId now json) =
        [(senderConn, Outbound.errorMsg "Invalid size. Must be between 3 and 100." now)]) := by
  have he : jsonOutcome st clientId now json =
      [.reply (.errorMsg "Invalid size. Must be between 3 and 100." now)] := by
    unfold jsonOutcome handleJsonMessageE handleCreateTradingFloor parseIntField
      parseStringField
    simp only [hTy, getAsString_str, hLow, hSizeField, hSizeVal, Option.getD_some]
    rcases hw : jget json "world" with _ | wv
    · simp only [hw]
      rcases hx : jget json "centerX" with _ | xv
      · simp only [hx]
        rcases hz : jget json "centerZ" with _ | zv
        · simp only [hz]
          rw [if_pos hRange]
        · rw [hz] at hCZOk
          simp only [Option.all] at hCZOk
          obtain ⟨zn, hzn⟩ := Option.isSome_iff_exists.mp hCZOk
          simp only [hz, hzn]
          rw [if_pos hRange]
      · rw [hx] at hCXOk
        simp only [Option.all] at hCXOk
        obtain ⟨xn, hxn⟩ := Option.isSome_iff_exists.mp hCXOk
        simp only [hx, hxn]
        rcases hz : jget json "centerZ" with _ | zv
        · simp only [hz]
          rw [if_pos hRange]
        · rw [hz] at hCZOk
          simp only [Option.all] at hCZOk
          obtain ⟨zn, hzn⟩ := Option.isSome_iff_exists.mp hCZOk
          simp only [hz, hzn]
          rw [if_pos hRange]
    · rw [hw] at hWorldOk
      simp only [Option.all] at hWorldOk
      obtain ⟨ws, hws⟩ := Option.isSome_iff_exists.mp hWorldOk
      simp only [hw, hws]
      rcases hx : jget json "centerX" with _ | xv
      · simp only [hx]
        rcases hz : jget json "centerZ" with _ | zv
        · simp only [hz]
          rw [if_pos hRange]
        · rw [hz] at hCZOk
          simp only [Option.all] at hCZOk
          obtain ⟨zn, hzn⟩ := Option.isSome_iff_exists.mp hCZOk
          simp only [hz, hzn]
          rw [if_pos hRange]
      · rw [hx] at hCXOk
        simp only [Option.all] at hCXOk
        obtain ⟨xn, hxn⟩ := Option.isSome_iff_exists.mp hCXOk
        simp only [hx, hxn]
        rcases hz : jget json "centerZ" with _ | zv
        · simp only [hz]
          rw [if_pos hRange]
        · rw [hz] at hCZOk
          simp only [Option.all] at hCZOk
          obtain ⟨zn, hzn⟩ := Option.isSome_iff_exists.mp hCZOk
          simp only [hz, hzn]
          rw [if_pos hRange]
  refine ⟨he, fun clients senderConn => ?_⟩
  rw [he]
  simp [deliveries, effectDeliveries]

/-- C3 witness: the theorem applied to scenario B, a frame of type
create_trading_floor with size 150. -/
theorem c3_witness :
    jsonOutcome exampleState "Client-1" 9
        [("type", JVal.str "create_trading_floor"), ("size", JVal.num 150)] =
      [.reply (.errorMsg "Invalid size. Must be between 3 and 100." 9)] ∧
    deliveries exampleClients 1
      (jsonOutcome exampleState "Client-1" 9
        [("type", JVal.str "create_trading_floor"), ("size", JVal.num 150)]) =
      [(1, Outbound.errorMsg "Invalid size. Must be between 3 and 100." 9)] :=
  ⟨(c3_invalid_size exampleState "Client-1" 9
      [("type", JVal.str "create_trading_floor"), ("size", JVal.num 150)]
      "create_trading_floor" (by decide) (by decide) (JVal.num 150) 150 (by decide)
      (by decide) (by decide) (by decide) (by decide) (by decide)).1,
   (c3_invalid_size exampleState "Client-1" 9
      [("type", JVal.str "create_trading_floor"), ("size", JVal.num 150)]
      "create_trading_floor" (by decide) (by decide) (JVal.num 150) 150 (by decide)
      (by decide) (by decide) (by decide) (by decide) (by decide)).2 exampleClients 1⟩

/- ===== Claim C8 ===== -/

theorem handleCreateTradingFloor_ne_nil (st : ServerState) (clientId : String)
    (now : Int) (json : JObj) :
    handleCreateTradingFloor st clientId now json ≠ [] := by
  unfold handleCreateTradingFloor
  cases hps : parseIntField json "size"
  · simp [hps]
  · cases hpw : parseStringField json "world"
    · simp [hps, hpw]
    · cases hpx : parseIntField json "centerX"
      · simp [hps, hpw, hpx]
      · cases hpz : parseIntField json "centerZ"
        · simp [hps, hpw, hpx, hpz]
        · simp only [hps, hpw, hpx, hpz]
          split
          · simp
          · split
            · simp
            · simp

/-- C8 counterexample: the structured broadcast frame without a
message field receives no reply, no relay and no acknowledgement at
all: its outcome is empty, so silence is a possible outcome of a
structured request. -/
theorem c8_counterexample :
    jsonOutcome exampleState "Client-1" 0 [("type", JVal.str "broadcast")] = [] := by
  decide

/-- C8 amended: the outcome of a structured frame is empty exactly
when the frame routes to broadcast and lacks a message field; every
other structured frame receives at least one terminal effect, a
typed reply, a typed error, or a relay. -/
theorem c8_amended (st : ServerState) (clientId : String) (now : Int) (json : JObj) :
    jsonOutcome st clientId now json = [] ↔
      ((extractedType json).map toLowerStr = some "broadcast" ∧
        jget json "message" = none) := by
  unfold jsonOutcome handleJsonMessageE extractedType
  rcases ht : jget json "type" with _ | tv
  · simp only [ht]
    constructor
    · intro h
      exact List.noConfusion h
    · rintro ⟨hb, _⟩
      exact absurd hb (by decide)
  · rcases hs : getAsString tv with _ | ty
    · simp [ht, hs]
    · simp only [ht, hs, Option.map_some']
      by_cases h1 : toLowerStr ty = "create_trading_floor"
      · simp [h1, handleCreateTradingFloor_ne_nil st clientId now json]
      · by_cases h2 : toLowerStr ty = "ping"
        · simp only [h2]
          unfold handlePing
          rcases hp : jget json "timestamp" with _ | pv
          · simp [hp]
          · rcases hl : getAsLong pv with _ | t
            · simp [hp, hl]
            · simp [hp, hl]
        · by_cases h3 : toLowerStr ty = "broadcast"
          · simp only [h3]
            unfold handleBroadcast
            rcases hm : jget json "message" with _ | mv
            · simp [hm]
            · rcases hg : getAsString mv with _ | m
              · simp [hm, hg]
              · simp [hm, hg]
          · by_cases h4 : toLowerStr ty = "get_server_info"
            · simp [h4, handleServerInfo]
            · simp [h1, h2, h3, h4]

/- ===== Claim C7 ===== -/

theorem mem_intRange {start : Int} {len : Nat} {x : Int} :
    x ∈ intRange start len ↔ start ≤ x ∧ x < start + len := by
  unfold intRange
  rw [List.mem_map]
  constructor
  · rintro ⟨i, hi, rfl⟩
    have hi2 := List.mem_range.mp hi
    simp only [Int.ofNat_eq_natCast]
    omega
  · rintro ⟨hx1, hx2⟩
    refine ⟨(x - start).toNat, List.mem_range.mpr (by omega), ?_⟩
    simp only [Int.ofNat_eq_natCast]
    omega

theorem mem_strideWhile {fuel : Nat} {start bound step y : Int} (hstep : 0 < step) :
    y ∈ strideWhile fuel start bound step ↔
      ∃ k : Nat, k < fuel ∧ y = start + k * step ∧ y < bound := by
  induction fuel generalizing start with
  | zero => simp [strideWhile]
  | succ f ih =>
    simp only [strideWhile]
    by_cases h : start < bound
    · rw [if_pos h]
      simp only [List.mem_cons, ih]
      constructor
      · rintro (rfl | ⟨k, hk, rfl, hy⟩)
        · exact ⟨0, Nat.succ_pos f, by simp, h⟩
        · exact ⟨k + 1, by omega, by push_cast; ring, hy⟩
      · rintro ⟨k, hk, rfl, hy⟩
        cases k with
        | zero => left; simp
        | succ k2 =>
          right
          exact ⟨k2, by omega, by push_cast; ring, hy⟩
    · rw [if_neg h]
      simp only [List.not_mem_nil, false_iff, not_exists]
      rintro k ⟨hk, rfl, hy⟩
      have hnn : (0:Int) ≤ (k : Int) * step := by positivity
      omega

theorem mem_buildFloorWrites {startX startZ size : Int} (h0 : 0 ≤ size)
    {w : BlockWrite} :
    w ∈ buildFloorWrites startX startZ size ↔
      ∃ x z, (startX ≤ x ∧ x < startX + size) ∧ (startZ ≤ z ∧ z < startZ + size) ∧
        w = (x, floorY, z, Material.polishedBlackstone) := by
  unfold buildFloorWrites
  simp only [List.mem_flatten, List.mem_map]
  constructor
  · rintro ⟨l, ⟨x, hx, rfl⟩, hw⟩
    rw [mem_intRange] at hx
    simp only [List.mem_map] at hw
    obtain ⟨z, hz, rfl⟩ := hw
    rw [mem_intRange] at hz
    exact ⟨x, z, by omega, by omega, rfl⟩
  · rintro ⟨x, z, hx, hz, rfl⟩
    refine ⟨_, ⟨x, ?_, rfl⟩, ?_⟩
    · rw [mem_intRange]
      omega
    · simp only [List.mem_map]
      exact ⟨z, by rw [mem_intRange]; omega, rfl⟩

theorem mem_buildGlassCeilingWrites {startX startZ size : Int} (h0 : 0 ≤ size)
    {w : BlockWrite} :
    w ∈ buildGlassCeilingWrites startX startZ size ↔
      ∃ x z, (startX ≤ x ∧ x < startX + size) ∧ (startZ ≤ z ∧ z < startZ + size) ∧
        w = (x, ceilingY, z, Material.glass) := by
  unfold buildGlassCeilingWrites
  simp only [List.mem_flatten, List.mem_map]
  constructor
  · rintro ⟨l, ⟨x, hx, rfl⟩, hw⟩
    rw [mem_intRange] at hx
    simp only [List.mem_map] at hw
    obtain ⟨z, hz, rfl⟩ := hw
    rw [mem_intRange] at hz
    exact ⟨x, z, by omega, by omega, rfl⟩
  · rintro ⟨x, z, hx, hz, rfl⟩
    refine ⟨_, ⟨x, ?_, rfl⟩, ?_⟩
    · rw [mem_intRange]
      omega
    · simp only [List.mem_map]
      exact ⟨z, by rw [mem_intRange]; omega, rfl⟩

theorem mem_buildWallsWrites {startX startZ size : Int} (h1 : 1 ≤ size)
    {w : BlockWrite} :
    w ∈ buildWallsWrites startX startZ size ↔
      ∃ x y z, (floorY + 1 ≤ y ∧ y ≤ floorY + 3) ∧
        (startX ≤ x ∧ x < startX + size) ∧ (startZ ≤ z ∧ z < startZ + size) ∧
        (x = startX ∨ x = startX + size - 1 ∨ z = startZ ∨ z = startZ + size - 1) ∧
        w = (x, y, z, Material.glass) := by
  unfold buildWallsWrites
  simp only [List.mem_flatten, List.mem_map]
  constructor
  · rintro ⟨l, ⟨y, hy, rfl⟩, hw⟩
    rw [mem_intRange] at hy
    have hy3 : floorY + 1 ≤ y ∧ y ≤ floorY + 3 := by
      simp only [floorY, ceilingY] at hy ⊢
      omega
    rcases List.mem_append.mp hw with hwa | hwb
    · simp only [List.mem_flatten, List.mem_map] at hwa
      obtain ⟨l2, ⟨x, hx, rfl⟩, hw2⟩ := hwa
      rw [mem_intRange] at hx
      rcases List.mem_cons.mp hw2 with rfl | hw3
      · exact ⟨x, y, startZ, hy3, by omega, by omega, by omega, rfl⟩
      · rcases List.mem_cons.mp hw3 with rfl | hw4
        · exact ⟨x, y, startZ + size - 1, hy3, by omega, by omega, by omega, rfl⟩
        · exact absurd hw4 (List.not_mem_nil _)
    · simp only [List.mem_flatten, List.mem_map] at hwb
      obtain ⟨l2, ⟨z, hz, rfl⟩, hw2⟩ := hwb
      rw [mem_intRange] at hz
      rcases List.mem_cons.mp hw2 with rfl | hw3
      · exact ⟨startX, y, z, hy3, by omega, by omega, by omega, rfl⟩
      · rcases List.mem_cons.mp hw3 with rfl | hw4
        · exact ⟨startX + size - 1, y, z, hy3, by omega, by omega, by omega, rfl⟩
        · exact absurd hw4 (List.not_mem_nil _)
  · rintro ⟨x, y, z, hy, hx, hz, hper, rfl⟩
    have hymem : y ∈ intRange (floorY + 1) (ceilingY - (floorY + 1)).toNat := by
      rw [mem_intRange]
      simp only [floorY, ceilingY] at hy ⊢
      omega
    refine ⟨_, ⟨y, hymem, rfl⟩, ?_⟩
    rw [List.mem_append]
    rcases hper with hx1 | hx2 | hz1 | hz2
    · right
      simp only [List.mem_flatten, List.mem_map]
      refine ⟨_, ⟨z, by rw [mem_intRange]; omega, rfl⟩, ?_⟩
      subst hx1
      simp
    · right
      simp only [List.mem_flatten, List.mem_map]
      refine ⟨_, ⟨z, by rw [mem_intRange]; omega, rfl⟩, ?_⟩
      subst hx2
      simp
    · left
      simp only [List.mem_flatten, List.mem_map]
      refine ⟨_, ⟨x, by rw [mem_intRange]; omega, rfl⟩, ?_⟩
      subst hz1
      simp
    · left
      simp only [List.mem_flatten, List.mem_map]
      refine ⟨_, ⟨x, by rw [mem_intRange]; omega, rfl⟩, ?_⟩
      subst hz2
      simp

theorem mem_addLightingWrites {startX startZ size lightY : Int}
    (h3 : 3 ≤ size) {w : BlockWrite} :
    w ∈ addLightingWrites startX startZ size lightY ↔
      ∃ x z,
        (∃ i : Nat, x = startX + max 4 (size / 6) * ((i : Int) + 1) ∧
          x < startX + size - 1) ∧
        (∃ j : Nat, z = startZ + max 4 (size / 6) * ((j : Int) + 1) ∧
          z < startZ + size - 1) ∧
        w = (x, lightY + 2, z, Material.seaLantern) := by
  have hsp : (4 : Int) ≤ max 4 (size / 6) := le_max_left _ _
  have hpos : (0 : Int) < max 4 (size / 6) := by omega
  unfold addLightingWrites
  simp only [List.mem_flatten, List.mem_map]
  constructor
  · rintro ⟨l, ⟨x, hx, rfl⟩, hw⟩
    rw [mem_strideWhile hpos] at hx
    obtain ⟨k, _, rfl, hxlt⟩ := hx
    simp only [List.mem_map] at hw
    obtain ⟨z, hz, rfl⟩ := hw
    rw [mem_strideWhile hpos] at hz
    obtain ⟨k2, _, rfl, hzlt⟩ := hz
    refine ⟨_, _, ⟨k, by ring, hxlt⟩, ⟨k2, by ring, hzlt⟩, rfl⟩
  · rintro ⟨x, z, ⟨i, rfl, hxlt⟩, ⟨j, rfl, hzlt⟩, rfl⟩
    have hib : ((i : Int) + 1) ≤ max 4 (size / 6) * ((i : Int) + 1) :=
      le_mul_of_one_le_left (by positivity) (by omega)
    have hjb : ((j : Int) + 1) ≤ max 4 (size / 6) * ((j : Int) + 1) :=
      le_mul_of_one_le_left (by positivity) (by omega)
    refine ⟨_, ⟨startX + max 4 (size / 6) * ((i : Int) + 1), ?_, rfl⟩, ?_⟩
    · rw [mem_strideWhile hpos]
      exact ⟨i, by omega, by ring, hxlt⟩
    · simp only [List.mem_map]
      refine ⟨startZ + max 4 (size / 6) * ((j : Int) + 1), ?_, rfl⟩
      rw [mem_strideWhile hpos]
      exact ⟨j, by omega, by ring, hzlt⟩

/-- C7: for every corner and every size in 3..100, the scheduled build
writes exactly these blocks: a polished blackstone floor at the fixed
elevation 100 over the whole footprint, glass walls spanning the
three levels 101..103 on the footprint perimeter, a glass ceiling at
104 over the whole footprint, and sea lanterns at level 103 on the
grid with spacing max(4, size/6) starting one spacing-unit in from
the west and north edges and stopping strictly before the last
footprint column. -/
theorem c7_build_writes (startX startZ size : Int) (h3 : 3 ≤ size)
    (h100 : size ≤ 100) (x y z : Int) (m : Material) :
    (x, y, z, m) ∈ buildTradingFloorWrites startX startZ size ↔
      ((m = Material.polishedBlackstone ∧ y = floorY ∧
         (startX ≤ x ∧ x < startX + size) ∧ (startZ ≤ z ∧ z < startZ + size)) ∨
       (m = Material.glass ∧ floorY + 1 ≤ y ∧ y ≤ floorY + 3 ∧
         (startX ≤ x ∧ x < startX + size) ∧ (startZ ≤ z ∧ z < startZ + size) ∧
         (x = startX ∨ x = startX + size - 1 ∨ z = startZ ∨ z = startZ + size - 1)) ∨
       (m = Material.glass ∧ y = floorY + 4 ∧
         (startX ≤ x ∧ x < startX + size) ∧ (startZ ≤ z ∧ z < startZ + size)) ∨
       (m = Material.seaLantern ∧ y = floorY + 3 ∧
         (∃ i : Nat, x = startX + max 4 (size / 6) * ((i : Int) + 1) ∧
           x < startX + size - 1) ∧
         (∃ j : Nat, z = startZ + max 4 (size / 6) * ((j : Int) + 1) ∧
           z < startZ + size - 1))) := by
  unfold buildTradingFloorWrites
  simp only [List.mem_append]
  rw [mem_buildFloorWrites (by omega), mem_buildWallsWrites (by omega),
      mem_buildGlassCeilingWrites (by omega), mem_addLightingWrites h3]
  constructor
  · rintro (((⟨x0, z0, hx, hz, heq⟩ | ⟨x0, y0, z0, hy, hx, hz, hper, heq⟩) |
      ⟨x0, z0, hx, hz, heq⟩) | ⟨x0, z0, hxs, hzs, heq⟩)
    · simp only [Prod.mk.injEq] at heq
      obtain ⟨rfl, rfl, rfl, rfl⟩ := heq
      exact Or.inl ⟨rfl, rfl, hx, hz⟩
    · simp only [Prod.mk.injEq] at heq
      obtain ⟨rfl, rfl, rfl, rfl⟩ := heq
      exact Or.inr (Or.inl ⟨rfl, hy.1, hy.2, hx, hz, hper⟩)
    · simp only [Prod.mk.injEq] at heq
      obtain ⟨rfl, rfl, rfl, rfl⟩ := heq
      refine Or.inr (Or.inr (Or.inl ⟨rfl, ?_, hx, hz⟩))
      simp [floorY, ceilingY]
    · simp only [Prod.mk.injEq] at heq
      obtain ⟨rfl, rfl, rfl, rfl⟩ := heq
      exact Or.inr (Or.inr (Or.inr ⟨rfl, by omega, hxs, hzs⟩))
  · rintro (⟨rfl, rfl, hx, hz⟩ | ⟨rfl, hy1, hy2, hx, hz, hper⟩ |
      ⟨rfl, rfl, hx, hz⟩ | ⟨rfl, hy, hxs, hzs⟩)
    · exact Or.inl (Or.inl (Or.inl ⟨x, z, hx, hz, rfl⟩))
    · exact Or.inl (Or.inl (Or.inr ⟨x, y, z, ⟨hy1, hy2⟩, hx, hz, hper, rfl⟩))
    · refine Or.inl (Or.inr ⟨x, z, hx, hz, ?_⟩)
      simp only [Prod.mk.injEq]
      norm_num [floorY, ceilingY]
    · refine Or.inr ⟨x, z, hxs, hzs, ?_⟩
      simp only [Prod.mk.injEq]
      norm_num [floorY]
      simp only [floorY] at hy
      omega

/-- C7 witness: the theorem applied at corner (0, 0), size 10, and
the block position (4, 103, 4) with a sea lantern, which the grid of
spacing 4 indeed contains. -/
theorem c7_witness :
    ((3:Int) ≤ 10 ∧ (10:Int) ≤ 100) ∧
    ((4, 103, 4, Material.seaLantern) ∈ buildTradingFloorWrites 0 0 10 ↔
      ((Material.seaLantern = Material.polishedBlackstone ∧ (103:Int) = floorY ∧
         ((0:Int) ≤ 4 ∧ (4:Int) < 0 + 10) ∧ ((0:Int) ≤ 4 ∧ (4:Int) < 0 + 10)) ∨
       (Material.seaLantern = Material.glass ∧ floorY + 1 ≤ 103 ∧ (103:Int) ≤ floorY + 3 ∧
         ((0:Int) ≤ 4 ∧ (4:Int) < 0 + 10) ∧ ((0:Int) ≤ 4 ∧ (4:Int) < 0 + 10) ∧
         ((4:Int) = 0 ∨ (4:Int) = 0 + 10 - 1 ∨ (4:Int) = 0 ∨ (4:Int) = 0 + 10 - 1)) ∨
       (Material.seaLantern = Material.glass ∧ (103:Int) = floorY + 4 ∧
         ((0:Int) ≤ 4 ∧ (4:Int) < 0 + 10) ∧ ((0:Int) ≤ 4 ∧ (4:Int) < 0 + 10)) ∨
       (Material.seaLantern = Material.seaLantern ∧ (103:Int) = floorY + 3 ∧
         (∃ i : Nat, (4:Int) = 0 + max 4 (10 / 6) * ((i : Int) + 1) ∧
           (4:Int) < 0 + 10 - 1) ∧
         (∃ j : Nat, (4:Int) = 0 + max 4 (10 / 6) * ((j : Int) + 1) ∧
           (4:Int) < 0 + 10 - 1)))) :=
  ⟨⟨by decide, by decide⟩, c7_build_writes 0 0 10 (by decide) (by decide) 4 103 4
    Material.seaLantern⟩

end BlockMarket
